import Mathlib

/-!
Verification of the OctaEEG driver acquisition core
(`timeflux_octaeeg/nodes/driver.py`), shallowly embedded in Lean 4.

Times are modelled in integer microseconds (the code works with
`np.datetime64(..., "us")` values); the host clock `now()` is a parameter
`hostNow : Int`.  Bytes are natural numbers below 256; physical sample
values are rationals (the Python floats realise the same arithmetic
expression).  The file lists all definitions first, then the theorems.
-/

namespace OctaEEG

/-- Drift-correction state owned by the acquisition loop
(`self.delta`, `self.last` in `_loop` / `_read`).
`delta` is `host_now - device_ts` in microseconds, `Option.none` before the
first sample; `last` is the last-seen device timestamp. -/
structure DriftState where
  delta : Option Int
  last : Nat
  deriving DecidableEq, Repr

/-- Initial drift state set at the top of `_loop`:
`self.delta = None`, `self.last = 0`. -/
def initDrift : DriftState := { delta := Option.none, last := 0 }

/-- The recalibration condition of `_read`, line 134:
`self.delta == None or self.last >= timestamp`. -/
def recalibrates (s : DriftState) (ts : Nat) : Bool :=
  s.delta.isNone || decide (s.last ≥ ts)

/-- One block of the timestamp reconciliation of `_read` (lines 134-137 and
144): recompute `delta = now() - device_ts` when `recalibrates`, set
`last := device_ts`, and emit the calibrated timestamp `device_ts + delta`.
This is a total function: a clock discontinuity only re-anchors. -/
def reconcile (hostNow : Int) (s : DriftState) (ts : Nat) : DriftState × Int :=
  let delta : Int :=
    if recalibrates s ts then hostNow - (ts : Int) else s.delta.getD 0
  ({ delta := Option.some delta, last := ts }, (ts : Int) + delta)

/-- Reconcile a sequence of device timestamps in order, returning the final
drift state and the emitted calibrated timestamps. -/
def reconcileSeq (hostNow : Int) : DriftState → List Nat → DriftState × List Int
  | s, [] => (s, [])
  | s, ts :: rest =>
    let p := reconcile hostNow s ts
    let q := reconcileSeq hostNow p.1 rest
    (q.1, p.2 :: q.2)

/-- Per-sample trace of the reconciler: for each device timestamp, whether
the offset was recomputed at that sample, and the emitted calibrated
timestamp. -/
def reconcileTrace (hostNow : Int) : DriftState → List Nat → List (Bool × Int)
  | _, [] => []
  | s, ts :: rest =>
    (recalibrates s ts, (reconcile hostNow s ts).2) ::
      reconcileTrace hostNow (reconcile hostNow s ts).1 rest

/-! ### Frame decoding (`_read`, lines 122-145) -/

/-- Python slice `data[start : start + len]`, as list take/drop: out-of-range
parts are silently truncated, never an error. -/
def byteSlice (data : List Nat) (start len : Nat) : List Nat :=
  (data.drop start).take len

/-- `int.from_bytes(bs, byteorder="little")`: first byte is least
significant; the empty sequence decodes to 0. -/
def fromBytesLE (bs : List Nat) : Nat :=
  bs.foldr (fun b acc => b + 256 * acc) 0

/-- Unsigned big-endian value of a byte sequence. -/
def fromBytesBE (bs : List Nat) : Nat :=
  bs.foldl (fun acc b => acc * 256 + b) 0

/-- `int.from_bytes(bs, byteorder="big", signed=True)`: two's complement,
negative when the top bit of the first byte is set; the empty sequence
decodes to 0. -/
def fromBytesBESigned (bs : List Nat) : Int :=
  if 2 * fromBytesBE bs ≥ 256 ^ bs.length then
    (fromBytesBE bs : Int) - (256 ^ bs.length : Nat)
  else (fromBytesBE bs : Int)

/-- `CHANNELS = 8` (driver.py line 16). -/
def CHANNELS : Nat := 8

/-- Device timestamp of a block: `int.from_bytes(block[0:4], "little")`. -/
def blockTimestamp (block : List Nat) : Nat := fromBytesLE (byteSlice block 0 4)

/-- Device counter of a block: `int.from_bytes(block[4:8], "little")`. -/
def blockCounter (block : List Nat) : Nat := fromBytesLE (byteSlice block 4 4)

/-- Raw signed 24-bit code of channel `k`:
`int.from_bytes(block[8 + 3 k : 11 + 3 k], "big", signed=True)`. -/
def channelRaw (block : List Nat) (k : Nat) : Int :=
  fromBytesBESigned (byteSlice block (8 + 3 * k) 3)

/-- Unit conversion of `_read` line 141:
`sample *= 1e6 * ((4.5 / 8388607) / self.gain)`, raw code to microvolts,
over the rationals (4.5 = 9/2). A pure total map: no error conditions. -/
def convert (gain : Nat) (raw : Int) : ℚ :=
  (raw : ℚ) * (1000000 * (((9 : ℚ) / 2 / 8388607) / (gain : ℚ)))

/-- One output row for a block (`_read` lines 133, 138-142): the 8 converted
channel values, prefixed by the raw device timestamp and counter when debug
mode is on. -/
def decodeRow (gain : Nat) (debug : Bool) (block : List Nat) : List ℚ :=
  (if debug then [(blockTimestamp block : ℚ), (blockCounter block : ℚ)] else [])
    ++ (List.range CHANNELS).map (fun k => convert gain (channelRaw block k))

/-- Block start offsets `range(0, n, 32)` (`_read` line 129): one block per
started 32-byte chunk, `⌈n / 32⌉` of them. -/
def blockStarts (n : Nat) : List Nat :=
  (List.range ((n + 31) / 32)).map (fun i => i * 32)

/-- Process a list of blocks in order (`_read` lines 129-144), threading the
drift state; returns the final state, the emitted calibrated timestamps and
the decoded rows, in order. -/
def processBlocks (gain : Nat) (debug : Bool) (hostNow : Int) :
    DriftState → List (List Nat) → DriftState × List Int × List (List ℚ)
  | s, [] => (s, [], [])
  | s, b :: bs =>
    let p := reconcile hostNow s (blockTimestamp b)
    let q := processBlocks gain debug hostNow p.1 bs
    (q.1, p.2 :: q.2.1, decodeRow gain debug b :: q.2.2)

/-- Result of `self._ws.recv()`: a bytes object, a list, a text string, or a
falsy result (empty/closed). -/
inductive RecvData where
  | bytes (data : List Nat)
  | list (data : List Nat)
  | text (s : String)
  | closed
  deriving DecidableEq, Repr

/-- The guard of `_read` line 126:
`if data and (type(data) is list or type(data) is bytes)`. Returns the frame
payload when the guard passes. -/
def recvPayload : RecvData → Option (List Nat)
  | RecvData.bytes data => if data.isEmpty then Option.none else Option.some data
  | RecvData.list data => if data.isEmpty then Option.none else Option.some data
  | _ => Option.none

/-- The whole of `_read`: receive, guard, slice into 32-byte blocks, decode.
Returns the updated drift state, the timestamps and the rows; on a guard
failure both output lists are empty and the drift state is untouched. -/
def readFrame (gain : Nat) (debug : Bool) (hostNow : Int) (s : DriftState)
    (r : RecvData) : DriftState × List Int × List (List ℚ) :=
  match recvPayload r with
  | Option.none => (s, [], [])
  | Option.some data =>
    processBlocks gain debug hostNow s
      ((blockStarts data.length).map (fun i => byteSlice data i 32))

/-! ### Accumulation buffer, acquisition loop, drain (`_reset`, `_loop`,
`update`) -/

/-- The shared accumulation buffer: `self._rows` and `self._timestamps`,
two parallel sequences guarded by `self._lock`. `_reset` (lines 101-104)
empties both. -/
structure Buffer where
  rows : List (List ℚ)
  timestamps : List Int
  deriving DecidableEq, Repr

/-- The buffer right after `_reset`: both sequences empty. -/
def emptyBuffer : Buffer := { rows := [], timestamps := [] }

/-- What `update` hands to `self.o.set(...)` on a non-empty drain: the
accumulated rows and timestamps, tagged with the static metadata
`{"rate": rate}`. -/
structure Output where
  rows : List (List ℚ)
  timestamps : List Int
  rate : Nat
  deriving DecidableEq, Repr

/-- One iteration of the `_loop` body (lines 111-117): `_read`, then append
both sequences to the buffer only when the decoded row list is non-empty. -/
def loopIter (gain : Nat) (debug : Bool) (hostNow : Int) (s : DriftState)
    (buf : Buffer) (r : RecvData) : DriftState × Buffer :=
  let p := readFrame gain debug hostNow s r
  if p.2.2.isEmpty then (p.1, buf)
  else (p.1, { rows := buf.rows ++ p.2.2, timestamps := buf.timestamps ++ p.2.1 })

/-- `update` (lines 148-154): under the lock, if the row cache is non-empty,
emit it with the timestamps and the `{"rate": rate}` metadata and `_reset`
the cache; otherwise do nothing (no output, no error). -/
def update (rate : Nat) (buf : Buffer) : Buffer × Option Output :=
  if buf.rows.isEmpty then (buf, Option.none)
  else (emptyBuffer,
    Option.some { rows := buf.rows, timestamps := buf.timestamps, rate := rate })

/-! ### Configuration validation and construction (`__init__`, lines 40-98) -/

/-- `RATES` table (driver.py line 14): rate in Hz to device register code. -/
def RATES : List (Nat × Nat) :=
  [(250, 0x96), (500, 0x95), (1000, 0x94), (2000, 0x93), (4000, 0x92),
   (8000, 0x91)]

/-- `GAINS` table (driver.py line 15): amplifier gain to register code. -/
def GAINS : List (Nat × Nat) :=
  [(1, 0x00), (2, 0x10), (4, 0x20), (6, 0x30), (8, 0x40), (12, 0x50),
   (24, 0x60)]

/-- Python dict lookup on an association table. -/
def tableLookup : List (Nat × Nat) → Nat → Option Nat
  | [], _ => Option.none
  | (k, v) :: rest, key =>
    if key = k then Option.some v else tableLookup rest key

/-- Errors raised by `__init__`: `ValueError` for an invalid rate or gain
(lines 43-50), `WorkerInterrupt` when the connection fails (line 71). -/
inductive InitError where
  | valueErrorRate
  | valueErrorGain
  | workerInterruptConnect
  deriving DecidableEq, Repr

/-- Validated configuration held by a constructed driver, with the register
codes written to the device (`RATES[rate]`, `GAINS[gain]`). -/
structure Config where
  rate : Nat
  gain : Nat
  rateCode : Nat
  gainCode : Nat
  deriving DecidableEq, Repr

/-- The validation prefix of `__init__` (lines 42-50): reject an unknown
rate, then an unknown gain, each with a `ValueError`, and return the two
register codes otherwise. -/
def validateConfig (rate gain : Nat) : Except InitError (Nat × Nat) :=
  match tableLookup RATES rate with
  | Option.none => Except.error InitError.valueErrorRate
  | Option.some rc =>
    match tableLookup GAINS gain with
    | Option.none => Except.error InitError.valueErrorGain
    | Option.some gc => Except.ok (rc, gc)

/-- `__init__` (lines 40-98): validate first, and only then attempt the
connection (lines 66-71, abstracted by `connectOk`); a connection failure
raises `WorkerInterrupt`. Validation errors are raised before any
connection attempt, so they do not depend on `connectOk`. -/
def construct (rate gain : Nat) (connectOk : Bool) : Except InitError Config :=
  match validateConfig rate gain with
  | Except.error e => Except.error e
  | Except.ok (rc, gc) =>
    if connectOk then
      Except.ok { rate := rate, gain := gain, rateCode := rc, gainCode := gc }
    else Except.error InitError.workerInterruptConnect

/-! ### Lifecycle (`__init__` lines 94-98, `terminate` lines 157-161) -/

/-- Thread-lifecycle state: the stop flag `self._running` and the value
stored in `self._thread`.  Line 98 is
`self._thread = Thread(target=self._loop).start()`: `Thread.start()` returns
`None` in Python, so the stored reference is always `Option.none` (the
started thread object itself is lost). -/
structure Lifecycle where
  running : Bool
  threadRef : Option Unit
  deriving DecidableEq, Repr

/-- Lifecycle right after construction: `self._running = True` and
`self._thread = Thread(target=self._loop).start() = None`. -/
def initLifecycle : Lifecycle := { running := true, threadRef := Option.none }

/-- One guarded iteration of `_loop` (line 111 `while self._running`): when
running, perform the loop body; the body never assigns `self._running`, so
the flag is carried through unchanged whatever the receive result. -/
def loopStep (gain : Nat) (debug : Bool) (hostNow : Int)
    (st : DriftState × Buffer × Lifecycle) (r : RecvData) :
    DriftState × Buffer × Lifecycle :=
  if st.2.2.running then
    let p := loopIter gain debug hostNow st.1 st.2.1 r
    (p.1, p.2, st.2.2)
  else st

/-- The stop-flag assignment of `terminate` (line 159):
`self._running = False`. -/
def terminateStopFlag (life : Lifecycle) : Lifecycle :=
  { life with running := false }

/-- Number of wait iterations the loop
`while self._thread and self._thread.is_alive(): sleep(0.001)`
(terminate, lines 160-161) performs before returning, when the loop thread
stays alive for `aliveFor` polls: zero when the stored thread reference is
`None` (the guard is falsy immediately), otherwise one per poll while the
thread is alive. -/
def terminateWaitIters (life : Lifecycle) (aliveFor : Nat) : Nat :=
  match life.threadRef with
  | Option.none => 0
  | Option.some _ => aliveFor

/-! ### Helper lemmas -/

/-- The rows produced by `processBlocks` are exactly the decoded blocks, in
order (the drift state influences timestamps only). -/
theorem processBlocks_rows (gain : Nat) (debug : Bool) (hostNow : Int)
    (s : DriftState) (bs : List (List Nat)) :
    (processBlocks gain debug hostNow s bs).2.2 =
      bs.map (decodeRow gain debug) := by
  induction bs generalizing s with
  | nil => rfl
  | cons b rest ih => simp [processBlocks, ih]

/-- `processBlocks` emits exactly one calibrated timestamp per block. -/
theorem processBlocks_timestamps_length (gain : Nat) (debug : Bool)
    (hostNow : Int) (s : DriftState) (bs : List (List Nat)) :
    (processBlocks gain debug hostNow s bs).2.1.length = bs.length := by
  induction bs generalizing s with
  | nil => rfl
  | cons b rest ih => simp [processBlocks, ih]

/-- `_read` always returns one timestamp per row. -/
theorem readFrame_lengths (gain : Nat) (debug : Bool) (hostNow : Int)
    (s : DriftState) (r : RecvData) :
    (readFrame gain debug hostNow s r).2.1.length =
      (readFrame gain debug hostNow s r).2.2.length := by
  cases hp : recvPayload r with
  | none => simp [readFrame, hp]
  | some data =>
    simp [readFrame, hp, processBlocks_rows, processBlocks_timestamps_length]

/-- Every row built by `decodeRow` has the 8 channel values, plus the two
debug columns when debug mode is on. -/
theorem decodeRow_length (gain : Nat) (debug : Bool) (block : List Nat) :
    (decodeRow gain debug block).length =
      if debug then CHANNELS + 2 else CHANNELS := by
  cases debug <;> simp [decodeRow]

/-- A little-endian byte value is below `256 ^ length`. -/
theorem fromBytesLE_lt (bs : List Nat) (h : ∀ b ∈ bs, b < 256) :
    fromBytesLE bs < 256 ^ bs.length := by
  induction bs with
  | nil => simp [fromBytesLE]
  | cons b rest ih =>
    have hb : b < 256 := h b (List.mem_cons_self b rest)
    have hr : fromBytesLE rest < 256 ^ rest.length :=
      ih (fun x hx => h x (List.mem_cons_of_mem b hx))
    have hstep : fromBytesLE (b :: rest) = b + 256 * fromBytesLE rest := rfl
    rw [hstep, List.length_cons, pow_succ]
    omega

/-- Accumulator form of the big-endian bound. -/
theorem fromBytesBE_foldl_lt (bs : List Nat) (acc : Nat)
    (h : ∀ b ∈ bs, b < 256) :
    List.foldl (fun a b => a * 256 + b) acc bs < (acc + 1) * 256 ^ bs.length := by
  induction bs generalizing acc with
  | nil => simp
  | cons b rest ih =>
    have hb : b < 256 := h b (List.mem_cons_self b rest)
    have hrec := ih (acc * 256 + b) (fun x hx => h x (List.mem_cons_of_mem b hx))
    have hstep : List.foldl (fun a b => a * 256 + b) acc (b :: rest) =
        List.foldl (fun a b => a * 256 + b) (acc * 256 + b) rest := rfl
    rw [hstep, List.length_cons, pow_succ]
    have hmul : (acc * 256 + b + 1) * 256 ^ rest.length ≤
        ((acc + 1) * 256) * 256 ^ rest.length :=
      mul_le_mul_right' (by omega) (256 ^ rest.length)
    have heq : ((acc + 1) * 256) * 256 ^ rest.length =
        (acc + 1) * (256 ^ rest.length * 256) := by ring
    omega

/-- A big-endian byte value is below `256 ^ length`. -/
theorem fromBytesBE_lt (bs : List Nat) (h : ∀ b ∈ bs, b < 256) :
    fromBytesBE bs < 256 ^ bs.length := by
  have h1 := fromBytesBE_foldl_lt bs 0 h
  simpa [fromBytesBE] using h1

/-- Two's-complement big-endian decoding of at most 3 bytes lies in the
signed 24-bit range. -/
theorem fromBytesBESigned_bounds (bs : List Nat) (h : ∀ b ∈ bs, b < 256)
    (hlen : bs.length ≤ 3) :
    -8388608 ≤ fromBytesBESigned bs ∧ fromBytesBESigned bs ≤ 8388607 := by
  have hv : fromBytesBE bs < 256 ^ bs.length := fromBytesBE_lt bs h
  have hpow : (256 : Nat) ^ bs.length ≤ 16777216 := by
    calc (256 : Nat) ^ bs.length ≤ 256 ^ 3 :=
          Nat.pow_le_pow_right (by omega) hlen
      _ = 16777216 := by norm_num
  unfold fromBytesBESigned
  split
  · constructor <;> omega
  · constructor <;> omega

/-- A slice has at most the requested length. -/
theorem byteSlice_length_le (data : List Nat) (start len : Nat) :
    (byteSlice data start len).length ≤ len := by
  simp only [byteSlice, List.length_take]
  omega

/-- Every byte of a slice is a byte of the sliced sequence. -/
theorem byteSlice_mem (data : List Nat) (start len b : Nat)
    (hb : b ∈ byteSlice data start len) : b ∈ data :=
  List.mem_of_mem_drop (List.mem_of_mem_take hb)

/-- Membership in the key column characterises a successful table lookup. -/
theorem tableLookup_isSome (tbl : List (Nat × Nat)) (k : Nat) :
    (tableLookup tbl k).isSome ↔ k ∈ tbl.map Prod.fst := by
  induction tbl with
  | nil => simp [tableLookup]
  | cons p rest ih =>
    by_cases h : k = p.1
    · subst h
      simp [tableLookup]
    · rw [show tableLookup (p :: rest) k = tableLookup rest k by
        cases p
        simp_all [tableLookup]]
      simp [ih, h, Ne.symm]

/-! ### Claim theorems -/

/-- C1: for every decoded block, the reconciler recomputes
`delta = host_now() - device_ts` exactly when the offset is uninitialized
(first sample) or the block's device timestamp is at most the last-seen
one; it always emits `device_ts + delta` with the current delta, and then
sets the last-seen device timestamp to this block's; `reconcile` is a total
function, so a discontinuity never raises. -/
theorem reconcile_strategyA (hostNow : Int) (s : DriftState) (ts : Nat) :
    ((s.delta = Option.none ∨ ts ≤ s.last) →
        (reconcile hostNow s ts).1.delta = Option.some (hostNow - (ts : Int)))
    ∧ (∀ d : Int, s.delta = Option.some d → s.last < ts →
        (reconcile hostNow s ts).1.delta = Option.some d)
    ∧ (∀ d : Int, (reconcile hostNow s ts).1.delta = Option.some d →
        (reconcile hostNow s ts).2 = (ts : Int) + d)
    ∧ (reconcile hostNow s ts).1.last = ts := by
  refine ⟨?_, ?_, ?_, rfl⟩
  · intro h
    have hrec : recalibrates s ts = true := by
      rcases h with h | h
      · simp [recalibrates, h]
      · simp [recalibrates]
        right
        exact h
    simp [reconcile, hrec]
  · intro d hd hlt
    have hrec : recalibrates s ts = false := by
      simp [recalibrates, hd]
      omega
    simp [reconcile, hrec, hd]
  · intro d hd
    simp only [reconcile] at hd ⊢
    have h1 : Option.some (if recalibrates s ts then hostNow - (ts : Int)
        else s.delta.getD 0) = Option.some d := hd
    simp only [Option.some.injEq] at h1
    simp [h1]

/-- Witness for `reconcile_strategyA`: concrete first-sample recalibration
and concrete preservation when the device clock advances. -/
theorem reconcile_strategyA_witness :
    (reconcile 100 { delta := Option.none, last := 0 } 40).1.delta =
        Option.some 60
    ∧ (reconcile 100 { delta := Option.some 7, last := 10 } 40).1.delta =
        Option.some 7 := by
  constructor
  · exact (reconcile_strategyA 100 { delta := Option.none, last := 0 } 40).1
      (Or.inl rfl)
  · exact (reconcile_strategyA 100 { delta := Option.some 7, last := 10 } 40).2.1
      7 rfl (by decide)

/-- C2 counterexample: on the synthetic device-timestamp sequence
`[100, 200, 50, 150]` with the constant host clock `1000000` and empty
drift state, the emitted calibrated timestamps are
`[1000000, 1000100, 1000000, 1000100]`, which is NOT non-decreasing
(the recalibration at index 2 re-anchors back to the host time). -/
theorem reconcileTrace_not_monotone :
    ((reconcileTrace 1000000 initDrift [100, 200, 50, 150]).map Prod.snd =
        [1000000, 1000100, 1000000, 1000100])
    ∧ ¬ List.Chain' (fun a b : Int => a ≤ b)
        ((reconcileTrace 1000000 initDrift [100, 200, 50, 150]).map
          Prod.snd) := by
  constructor
  · rfl
  · intro h
    have h' : List.Chain' (fun a b : Int => a ≤ b)
        ([1000000, 1000100, 1000000, 1000100] : List Int) := h
    simp only [List.chain'_cons, List.chain'_singleton] at h'
    omega

/-- C2 amended: on `[100, 200, 50, 150]` with any constant host clock `H`
and empty drift state, the offset is recomputed exactly at indices 0 (the
mandatory first-sample initialization) and 2 (where `50 <= 200`), and the
emitted calibrated timestamps are `[H, H + 100, H, H + 100]`: non-decreasing
on each side of the recalibration point, but decreasing across it, because
the re-anchoring at index 2 maps device time 50 back to host time `H`. -/
theorem reconcileTrace_recalibration (H : Int) :
    (reconcileTrace H initDrift [100, 200, 50, 150]).map Prod.fst =
        [true, false, true, false]
    ∧ (reconcileTrace H initDrift [100, 200, 50, 150]).map Prod.snd =
        [H, H + 100, H, H + 100] := by
  refine ⟨rfl, ?_⟩
  show [100 + (H - 100), 200 + (H - 100), 50 + (H - 50), 150 + (H - 50)] =
      [H, H + 100, H, H + 100]
  norm_num
  omega

/-- C3 counterexample: a 33-byte frame (32 zero bytes plus one trailing
byte) decodes to 2 rows, not `floor(33 / 32) = 1`: the trailing remainder is
not dropped but decoded as a partial block whose missing byte slices read
as 0. -/
theorem readFrame_partial_block_not_dropped :
    ((readFrame 24 false 0 initDrift
        (RecvData.bytes (List.replicate 33 0))).2.2).length = 2
    ∧ (33 : Nat) / 32 = 1 := by
  constructor
  · rfl
  · rfl

/-- C3 amended: decoding a received byte frame yields exactly
`⌈len(frame) / 32⌉` rows, without raising an error: a frame whose length is
an exact multiple of 32 yields `len / 32` rows, and a frame with a short
trailing remainder yields one additional row decoded from the partial tail
block (its out-of-range byte slices decode to 0). -/
theorem readFrame_rowCount (gain : Nat) (debug : Bool) (hostNow : Int)
    (s : DriftState) (data : List Nat) :
    ((readFrame gain debug hostNow s (RecvData.bytes data)).2.2).length =
      (data.length + 31) / 32 := by
  by_cases h : data.isEmpty
  · rw [List.isEmpty_iff] at h
    subst h
    rfl
  · have hp : recvPayload (RecvData.bytes data) = Option.some data := by
      simp [recvPayload, h]
    simp [readFrame, hp, processBlocks_rows, blockStarts]

/-- C4: unit conversion is the pure per-sample scalar map
`physical = raw * (1e6 * (4.5 / 8388607) / gain)` in microvolts; `convert`
is total, so there is no error condition for any raw code or gain; raw code
0 converts to exactly 0 for every gain, raw code 8388607 at gain 1 converts
to exactly 4500000 µV (over the rationals), and in general the converted
value times the gain is the gain-1 scale of the raw code. -/
theorem convert_contract (gain : Nat) (hg : 0 < gain) (raw : Int) :
    convert gain 0 = 0
    ∧ convert 1 8388607 = 4500000
    ∧ (gain : ℚ) * convert gain raw =
        (raw : ℚ) * (1000000 * ((9 : ℚ) / 2 / 8388607)) := by
  refine ⟨by simp [convert], by norm_num [convert], ?_⟩
  have hg' : (gain : ℚ) ≠ 0 := Nat.cast_ne_zero.mpr hg.ne'
  unfold convert
  field_simp
  ring

/-- Witness for `convert_contract` at gain 24 and the maximum raw code. -/
theorem convert_contract_witness :
    convert 24 0 = 0
    ∧ (24 : ℚ) * convert 24 8388607 =
        (8388607 : ℚ) * (1000000 * ((9 : ℚ) / 2 / 8388607)) := by
  constructor
  · exact (convert_contract 24 (by decide) 8388607).1
  · exact (convert_contract 24 (by decide) 8388607).2.2

/-- C5: construction validates before connecting: it succeeds exactly for
the rates and gains listed in the register tables, in which case the
register codes are the table entries; for any other rate or gain it raises
the corresponding `ValueError` whatever the connection would have done
(`∀ c`), i.e. before any connection attempt. Validation is a pure function
of (rate, gain), hence deterministic and idempotent. -/
theorem construct_validation (rate gain : Nat) :
    ((∃ cfg, construct rate gain true = Except.ok cfg) ↔
        rate ∈ RATES.map Prod.fst ∧ gain ∈ GAINS.map Prod.fst)
    ∧ (∀ p ∈ RATES, ∀ q ∈ GAINS,
        validateConfig p.1 q.1 = Except.ok (p.2, q.2))
    ∧ (rate ∉ RATES.map Prod.fst → ∀ c : Bool,
        construct rate gain c = Except.error InitError.valueErrorRate)
    ∧ (rate ∈ RATES.map Prod.fst → gain ∉ GAINS.map Prod.fst → ∀ c : Bool,
        construct rate gain c = Except.error InitError.valueErrorGain) := by
  refine ⟨?_, ?_, ?_, ?_⟩
  · constructor
    · rintro ⟨cfg, hcfg⟩
      rw [← tableLookup_isSome, ← tableLookup_isSome]
      cases hr : tableLookup RATES rate with
      | none => simp [construct, validateConfig, hr] at hcfg
      | some rc =>
        cases hg : tableLookup GAINS gain with
        | none => simp [construct, validateConfig, hr, hg] at hcfg
        | some gc => simp [hr, hg]
    · rintro ⟨hr, hg⟩
      rw [← tableLookup_isSome] at hr hg
      cases hr' : tableLookup RATES rate with
      | none => simp [hr'] at hr
      | some rc =>
        cases hg' : tableLookup GAINS gain with
        | none => simp [hg'] at hg
        | some gc =>
          exact ⟨{ rate := rate, gain := gain, rateCode := rc, gainCode := gc },
            by simp [construct, validateConfig, hr', hg']⟩
  · intro p hp q hq
    fin_cases hp <;> fin_cases hq <;> rfl
  · intro h c
    rw [← tableLookup_isSome] at h
    cases hr : tableLookup RATES rate with
    | none => simp [construct, validateConfig, hr]
    | some rc => simp [hr] at h
  · intro hr hg c
    rw [← tableLookup_isSome] at hr hg
    cases hr' : tableLookup RATES rate with
    | none => simp [hr'] at hr
    | some rc =>
      cases hg' : tableLookup GAINS gain with
      | none => simp [construct, validateConfig, hr', hg']
      | some gc => simp [hg'] at hg

/-- Witness for `construct_validation`: the valid pair (250, 24) constructs,
and the invalid rate 9999 raises the rate `ValueError`. -/
theorem construct_validation_witness :
    (∃ cfg, construct 250 24 true = Except.ok cfg)
    ∧ construct 9999 24 true = Except.error InitError.valueErrorRate := by
  constructor
  · exact (construct_validation 250 24).1.mpr ⟨by decide, by decide⟩
  · exact (construct_validation 9999 24).2.2.1 (by decide) true

/-- C6: a drain on a non-empty buffer emits all accumulated rows and
timestamps tagged with the rate metadata and resets the buffer to empty; a
drain on an empty buffer emits nothing (and is not an error: `update` is
total); hence the second of two back-to-back drains always emits nothing. -/
theorem update_drain (rate : Nat) (buf : Buffer) :
    (buf.rows ≠ [] → update rate buf = (emptyBuffer,
        Option.some { rows := buf.rows, timestamps := buf.timestamps, rate := rate }))
    ∧ (buf.rows = [] → update rate buf = (buf, Option.none))
    ∧ (update rate (update rate buf).1).2 = Option.none := by
  refine ⟨?_, ?_, ?_⟩
  · intro h
    simp [update, h]
  · intro h
    simp [update, h]
  · by_cases h : buf.rows.isEmpty
    · simp [update, h]
    · simp [update, h, emptyBuffer]

/-- Witness for `update_drain`: a concrete non-empty drain and a concrete
empty drain. -/
theorem update_drain_witness :
    update 250 { rows := [[(1 : ℚ)]], timestamps := [5] } =
        (emptyBuffer,
          Option.some { rows := [[(1 : ℚ)]], timestamps := [5], rate := 250 })
    ∧ update 250 emptyBuffer = (emptyBuffer, Option.none) := by
  constructor
  · exact (update_drain 250 { rows := [[(1 : ℚ)]], timestamps := [5] }).1
      (by simp)
  · exact (update_drain 250 emptyBuffer).2.1 rfl

/-- C7: in a block of bytes, the device timestamp is the little-endian
unsigned value of bytes [0:4] (so below `2 ^ 32`), the counter the
little-endian unsigned value of bytes [4:8], and each channel code the
big-endian two's-complement value of the 3 bytes at offset `8 + 3 k`; every
decoded raw channel code lies in `[-8388608, 8388607]`. -/
theorem blockWireFormat (block : List Nat) (h : ∀ b ∈ block, b < 256) :
    blockTimestamp block < 2 ^ 32
    ∧ blockCounter block < 2 ^ 32
    ∧ ∀ k, k < CHANNELS →
        -8388608 ≤ channelRaw block k ∧ channelRaw block k ≤ 8388607 := by
  have hb0 : ∀ start len, ∀ b ∈ byteSlice block start len, b < 256 :=
    fun start len b hb => h b (byteSlice_mem block start len b hb)
  refine ⟨?_, ?_, ?_⟩
  · have h1 := fromBytesLE_lt (byteSlice block 0 4) (hb0 0 4)
    have h2 : (256 : Nat) ^ (byteSlice block 0 4).length ≤ 256 ^ 4 :=
      Nat.pow_le_pow_right (by omega) (byteSlice_length_le block 0 4)
    have h3 : (256 : Nat) ^ 4 = 2 ^ 32 := by norm_num
    unfold blockTimestamp
    omega
  · have h1 := fromBytesLE_lt (byteSlice block 4 4) (hb0 4 4)
    have h2 : (256 : Nat) ^ (byteSlice block 4 4).length ≤ 256 ^ 4 :=
      Nat.pow_le_pow_right (by omega) (byteSlice_length_le block 4 4)
    have h3 : (256 : Nat) ^ 4 = 2 ^ 32 := by norm_num
    unfold blockCounter
    omega
  · intro k _
    exact fromBytesBESigned_bounds (byteSlice block (8 + 3 * k) 3)
      (hb0 (8 + 3 * k) 3) (byteSlice_length_le block (8 + 3 * k) 3)

/-- Witness for `blockWireFormat` at the all-255 block: the first channel
code (value -1) is within the signed 24-bit range. -/
theorem blockWireFormat_witness :
    blockTimestamp (List.replicate 32 255) < 2 ^ 32
    ∧ -8388608 ≤ channelRaw (List.replicate 32 255) 0 := by
  have h := blockWireFormat (List.replicate 32 255) (by decide)
  exact ⟨h.1, (h.2.2 0 (by decide)).1⟩

/-- C8: every row appended to the buffer has exactly the 8 channel values,
plus the device timestamp and counter when debug mode is on; `_read`
returns one timestamp per row, and both a loop append and a drain preserve
the equal-length invariant of the two parallel buffer sequences. -/
theorem bufferShape (gain : Nat) (debug : Bool) (hostNow : Int)
    (s : DriftState) (r : RecvData) (buf : Buffer) (rate : Nat) :
    (∀ row ∈ (readFrame gain debug hostNow s r).2.2,
        row.length = if debug then CHANNELS + 2 else CHANNELS)
    ∧ (readFrame gain debug hostNow s r).2.1.length =
        (readFrame gain debug hostNow s r).2.2.length
    ∧ (buf.rows.length = buf.timestamps.length →
        (loopIter gain debug hostNow s buf r).2.rows.length =
          (loopIter gain debug hostNow s buf r).2.timestamps.length)
    ∧ (buf.rows.length = buf.timestamps.length →
        (update rate buf).1.rows.length =
          (update rate buf).1.timestamps.length) := by
  refine ⟨?_, readFrame_lengths gain debug hostNow s r, ?_, ?_⟩
  · intro row hrow
    cases hp : recvPayload r with
    | none => simp [readFrame, hp] at hrow
    | some data =>
      rw [readFrame] at hrow
      simp only [hp, processBlocks_rows, List.mem_map] at hrow
      obtain ⟨b, _, hb⟩ := hrow
      rw [← hb]
      exact decodeRow_length gain debug b
  · intro hlen
    by_cases h : (readFrame gain debug hostNow s r).2.2.isEmpty
    · simp [loopIter, h, hlen]
    · simp only [loopIter, h, Bool.false_eq_true, if_false, List.length_append,
        hlen, readFrame_lengths gain debug hostNow s r]
  · intro hlen
    unfold update
    split
    · simpa using hlen
    · simp [emptyBuffer]

/-- Witness for `bufferShape` on a concrete 32-byte debug frame and the
empty buffer. -/
theorem bufferShape_witness :
    (∀ row ∈ (readFrame 24 true 0 initDrift
        (RecvData.bytes (List.replicate 32 0))).2.2,
      row.length = if true then CHANNELS + 2 else CHANNELS)
    ∧ (loopIter 24 true 0 initDrift emptyBuffer
        (RecvData.bytes (List.replicate 32 0))).2.rows.length =
      (loopIter 24 true 0 initDrift emptyBuffer
        (RecvData.bytes (List.replicate 32 0))).2.timestamps.length := by
  have h := bufferShape 24 true 0 initDrift
    (RecvData.bytes (List.replicate 32 0)) emptyBuffer 250
  exact ⟨h.1, h.2.2.1 rfl⟩

/-- C9: the loop body never changes the stop flag, so RUNNING→STOPPED can
only come from the external stop signal, and `terminate` does set the flag
to false; but `terminate` does NOT wait for the acquisition thread:
`self._thread` holds `Thread(target=self._loop).start()`, which is `None`,
so the wait loop `while self._thread and self._thread.is_alive()` performs
zero iterations however long the thread stays alive - the code-bug
divergence from the claim. -/
theorem shutdown_lifecycle (gain : Nat) (debug : Bool) (hostNow : Int)
    (st : DriftState × Buffer × Lifecycle) (r : RecvData) (aliveFor : Nat) :
    (loopStep gain debug hostNow st r).2.2.running = st.2.2.running
    ∧ (terminateStopFlag st.2.2).running = false
    ∧ initLifecycle.threadRef = Option.none
    ∧ terminateWaitIters initLifecycle aliveFor = 0 := by
  refine ⟨?_, rfl, rfl, rfl⟩
  unfold loopStep
  split <;> rfl

/-- C10: when the receive guard fails - empty bytes or list, a text frame,
or a falsy/closed result - `_read` returns two empty sequences with the
drift state untouched, and the loop iteration leaves the buffer unchanged. -/
theorem readFrame_guard (gain : Nat) (debug : Bool) (hostNow : Int)
    (s : DriftState) (buf : Buffer) (r : RecvData)
    (h : r = RecvData.bytes [] ∨ r = RecvData.list [] ∨
      (∃ t, r = RecvData.text t) ∨ r = RecvData.closed) :
    readFrame gain debug hostNow s r = (s, [], [])
    ∧ loopIter gain debug hostNow s buf r = (s, buf) := by
  have hp : recvPayload r = Option.none := by
    rcases h with h | h | ⟨t, h⟩ | h <;> subst h <;> rfl
  constructor
  · simp [readFrame, hp]
  · simp [loopIter, readFrame, hp]

/-- Witness for `readFrame_guard` at a closed/falsy receive. -/
theorem readFrame_guard_witness :
    readFrame 24 false 0 initDrift RecvData.closed = (initDrift, [], [])
    ∧ loopIter 24 false 0 initDrift emptyBuffer RecvData.closed =
        (initDrift, emptyBuffer) :=
  readFrame_guard 24 false 0 initDrift emptyBuffer RecvData.closed
    (Or.inr (Or.inr (Or.inr rfl)))

end OctaEEG
